import Mathlib

/-!
Verification of the GoogleDriveNotes secure-storage subsystem.

Shallow embedding of the relevant parts of `src/encryption.py`,
`src/functions.py` and `src/gdrive.py`.  Python byte strings are
`List Nat` (each element a byte value), Python text strings are
`List Char` (each element a code point).  External library primitives
(the `cryptography` Fernet scheme, `hashlib` digests, `os.urandom`)
are not part of the repository; they are modelled as executable Lean
functions that are faithful to the interface properties the library
documents (determinism, output shapes, AEAD round-trip), with the
randomness they consume passed in explicitly as a parameter.
-/

namespace GDNotes

/-- Cheap deterministic mixing step used by the models of the external
digest primitives (the concrete digest values are irrelevant to every
claim; only determinism and output shape matter). -/
def mixStep (acc x : Nat) : Nat :=
  (acc * 131 + x + 17) % 4294967291

/-- Fold `mixStep` over a byte list starting from a seed. -/
def mixFold (seed : Nat) (l : List Nat) : Nat :=
  l.foldl mixStep seed

/-! ## Model of the Fernet primitive from the `cryptography` library

Modelled from the spec: the repository calls `cryptography.fernet.Fernet`,
which is not part of the repository.  The spec describes it as an
authenticated symmetric scheme producing a self-describing versioned
token (version byte, nonce/IV, ciphertext, authentication tag) such that
decryption under the same key inverts encryption and any malformed or
tampered token is rejected.  The model below realises exactly that
interface: a version byte `128`, a 16-byte IV carried in the token, a
key-and-IV-dependent stream cipher, and a 32-byte MAC over the header
and ciphertext. -/

/-- One keystream byte, a deterministic function of key, IV and position. -/
def fernetKeyStreamByte (key iv : List Nat) (i : Nat) : Nat :=
  mixStep (mixFold (mixFold 9973 key) iv) i % 256

/-- XOR a byte list against a keystream starting at position `i`. -/
def xorStream (f : Nat → Nat) : Nat → List Nat → List Nat
  | _, [] => []
  | i, b :: bs => (b ^^^ f i) :: xorStream f (i + 1) bs

/-- Normalise an IV to exactly 16 bytes. -/
def padIV (iv : List Nat) : List Nat :=
  (iv ++ List.replicate 16 0).take 16

/-- 32-byte authentication tag over a token body. -/
def fernetMac (key body : List Nat) : List Nat :=
  (List.range 32).map fun i => mixStep (mixFold (mixFold 31 key) body) i % 256

/-- Fernet encryption: token = version byte `128`, IV, ciphertext, MAC. -/
def fernetEncrypt (key iv data : List Nat) : List Nat :=
  let iv16 := padIV iv
  let ct := xorStream (fernetKeyStreamByte key iv16) 0 data
  let body := 128 :: iv16 ++ ct
  body ++ fernetMac key body

/-- Fernet decryption: parse the token, check version and MAC, invert the
stream cipher.  `none` models the `InvalidToken` failure. -/
def fernetDecrypt (key token : List Nat) : Option (List Nat) :=
  match token with
  | 128 :: rest =>
    if 48 ≤ rest.length then
      let iv := rest.take 16
      let body := rest.drop 16
      let ct := body.take (body.length - 32)
      let mac := body.drop (body.length - 32)
      if mac = fernetMac key (128 :: iv ++ ct) then
        some (xorStream (fernetKeyStreamByte key iv) 0 ct)
      else none
    else none
  | _ => none

/-- Conversion mode of `encryption.convert` (src/encryption.py lines 42-86). -/
inductive ConvType where
  | encrypt
  | decrypt
deriving DecidableEq, Repr

/-- Failure of the underlying primitive during `convert` (Fernet raises
`InvalidToken` on a bad token). -/
inductive ConvErr where
  | integrityError
deriving DecidableEq, Repr

/-- Embedding of the data transformation of `encryption.convert`
(src/encryption.py lines 68-83, `storage_type='return'`): the file's
byte content is read; empty content is returned unchanged without
calling the primitive; otherwise the Fernet primitive is applied.
The second component counts invocations of the underlying primitive. -/
def convertData (fileData : List Nat) (ty : ConvType) (key iv : List Nat) :
    Except ConvErr (List Nat) × Nat :=
  if fileData = [] then (.ok fileData, 0)
  else
    match ty with
    | .encrypt => (.ok (fernetEncrypt key iv fileData), 1)
    | .decrypt =>
      match fernetDecrypt key fileData with
      | some d => (.ok d, 1)
      | none => (.error .integrityError, 1)

/-! ### Round-trip lemmas for the Fernet model -/

theorem xorStream_length (f : Nat → Nat) : ∀ (i : Nat) (l : List Nat),
    (xorStream f i l).length = l.length := by
  intro i l
  induction l generalizing i with
  | nil => rfl
  | cons b bs ih => simp [xorStream, ih]

theorem xorStream_xorStream (f : Nat → Nat) : ∀ (i : Nat) (l : List Nat),
    xorStream f i (xorStream f i l) = l := by
  intro i l
  induction l generalizing i with
  | nil => rfl
  | cons b bs ih =>
    simp only [xorStream, ih]
    rw [Nat.xor_cancel_right]

theorem padIV_length (iv : List Nat) : (padIV iv).length = 16 := by
  simp [padIV]

theorem fernetMac_length (key body : List Nat) : (fernetMac key body).length = 32 := by
  simp [fernetMac]

theorem fernetDecrypt_fernetEncrypt (key iv data : List Nat) :
    fernetDecrypt key (fernetEncrypt key iv data) = some data := by
  unfold fernetEncrypt fernetDecrypt
  simp only [List.cons_append, List.append_assoc]
  have hiv : (padIV iv).length = 16 := padIV_length iv
  have hct : (xorStream (fernetKeyStreamByte key (padIV iv)) 0 data).length = data.length :=
    xorStream_length _ 0 data
  have hmac : (fernetMac key
      (128 :: (padIV iv ++ xorStream (fernetKeyStreamByte key (padIV iv)) 0 data))).length = 32 :=
    fernetMac_length _ _
  have hlen : 48 ≤ (padIV iv ++
      (xorStream (fernetKeyStreamByte key (padIV iv)) 0 data ++
        fernetMac key
          (128 :: (padIV iv ++ xorStream (fernetKeyStreamByte key (padIV iv)) 0 data)))).length := by
    simp only [List.length_append, hiv, hct, hmac]
    omega
  rw [if_pos hlen]
  rw [List.take_left' hiv, List.drop_left' hiv]
  have hlen2 : (xorStream (fernetKeyStreamByte key (padIV iv)) 0 data ++
      fernetMac key
        (128 :: (padIV iv ++ xorStream (fernetKeyStreamByte key (padIV iv)) 0 data))).length - 32
      = data.length := by
    simp only [List.length_append, hct, hmac]
    omega
  rw [hlen2, List.take_left' hct, List.drop_left' hct]
  rw [if_pos rfl]
  rw [xorStream_xorStream]

/-- C1: decrypting the result of encrypting a non-empty buffer under the
same key through the `convert` operation returns the original buffer. -/
theorem convert_decrypt_encrypt (key iv b : List Nat) (hb : b ≠ []) :
    ∀ c, (convertData b .encrypt key iv).1 = .ok c →
      (convertData c .decrypt key iv).1 = .ok b := by
  intro c hc
  have hcval : c = fernetEncrypt key iv b := by
    unfold convertData at hc
    rw [if_neg hb] at hc
    simpa using hc.symm
  subst hcval
  have hne : fernetEncrypt key iv b ≠ [] := by
    unfold fernetEncrypt
    simp
  unfold convertData
  rw [if_neg hne]
  simp [fernetDecrypt_fernetEncrypt]

def keyW : List Nat := [7, 3, 200, 41]

def ivW : List Nat := [1, 2, 3, 4, 5]

/-- Witness for C1 at a concrete key, IV and buffer. -/
theorem convert_decrypt_encrypt_witness :
    (convertData (fernetEncrypt keyW ivW [10, 20, 30]) .decrypt keyW ivW).1 = .ok [10, 20, 30] :=
  convert_decrypt_encrypt keyW ivW [10, 20, 30] (by decide)
    (fernetEncrypt keyW ivW [10, 20, 30]) rfl

/-- C2: converting the empty byte string, in either mode and under any
key, returns the empty byte string and never invokes the underlying
primitive (invocation count 0). -/
theorem convert_empty (ty : ConvType) (key iv : List Nat) :
    convertData [] ty key iv = (.ok [], 0) := by
  unfold convertData
  rw [if_pos rfl]

/-! ## Python string/byte encoding helpers -/

/-- Hex digit characters, as produced by `hexdigest` / `binascii.hexlify`. -/
def hexDigit : Nat → Char
  | 0 => '0' | 1 => '1' | 2 => '2' | 3 => '3' | 4 => '4'
  | 5 => '5' | 6 => '6' | 7 => '7' | 8 => '8' | 9 => '9'
  | 10 => 'a' | 11 => 'b' | 12 => 'c' | 13 => 'd' | 14 => 'e'
  | _ => 'f'

/-- Hex encoding of a byte list (two lowercase hex characters per byte),
the character-level content of `binascii.hexlify`. -/
def bytesToHexChars (bs : List Nat) : List Char :=
  bs.foldr (fun b acc => hexDigit (b / 16 % 16) :: hexDigit (b % 16) :: acc) []

/-- UTF-8 encoding of a single code point (`str.encode('utf-8')`). -/
def charUtf8 (c : Char) : List Nat :=
  let n := c.toNat
  if n < 128 then [n]
  else if n < 2048 then [192 + n / 64, 128 + n % 64]
  else if n < 65536 then [224 + n / 4096, 128 + n / 64 % 64, 128 + n % 64]
  else [240 + n / 262144, 128 + n / 4096 % 64, 128 + n / 64 % 64, 128 + n % 64]

/-- UTF-8 encoding of a Python string (`str.encode('utf-8')` / `str.encode()`). -/
def pyEncodeUtf8 (s : List Char) : List Nat :=
  s.foldr (fun c acc => charUtf8 c ++ acc) []

/-- ASCII encoding of a Python string (`str.encode('ascii')`): fails with
`UnicodeEncodeError` on any code point at or above 128. -/
def asciiEncode (s : List Char) : Option (List Nat) :=
  if s.all (fun c => decide (c.toNat < 128)) then some (s.map Char.toNat) else none

/-! ## Models of the `hashlib` primitives

Modelled from the spec: `hashlib.sha256` and `hashlib.pbkdf2_hmac` are
library primitives outside the repository.  Every claim about the
password hasher depends only on their interface shape — SHA-256 yields a
32-byte digest (64 hex characters), PBKDF2-HMAC-SHA512 with a requested
64-byte output yields 64 bytes, and both are deterministic functions of
their inputs (password bytes, salt bytes, iteration count).  The models
below are deterministic executable functions with exactly those output
shapes. -/

/-- Model of the SHA-256 digest: 32 bytes, deterministic in the input. -/
def sha256Model (input : List Nat) : List Nat :=
  (List.range 32).map fun i => mixStep (mixFold 137 input) i % 256

/-- Model of `hashlib.sha256(input).hexdigest()`: 64 hex characters. -/
def sha256HexDigest (input : List Nat) : List Char :=
  bytesToHexChars (sha256Model input)

/-- Model of `hashlib.pbkdf2_hmac('sha512', password, salt, iterations)`:
64 bytes, deterministic in password, salt and iteration count. -/
def pbkdf2HmacSha512Model (password salt : List Nat) (iterations : Nat) : List Nat :=
  (List.range 64).map fun i =>
    mixStep (mixFold (mixFold (iterations + 255) password) salt) i % 256

/-- Python error kinds that `verify_password` can raise. -/
inductive PyErr where
  | valueError
  | unicodeEncodeError
deriving DecidableEq, Repr

/-- Embedding of `encryption.get_password_hash` (src/encryption.py lines
89-97): the salt is the SHA-256 hex digest of 60 random bytes (passed in
explicitly as `rnd`, standing for `os.urandom(60)`), the derived hash is
PBKDF2-HMAC-SHA512 with 100000 iterations over the UTF-8 password bytes
and the salt's bytes, and the result is the salt followed by the
hex-encoded derived hash. -/
def get_password_hash (word : List Char) (rnd : List Nat) : List Char :=
  let salt := sha256HexDigest rnd
  let pwdhash := bytesToHexChars
    (pbkdf2HmacSha512Model (pyEncodeUtf8 word) (pyEncodeUtf8 salt) 100000)
  salt ++ pwdhash

/-- Embedding of `encryption.verify_password` (src/encryption.py lines
100-113): reject passwords longer than 1024 characters with
`ValueError`; split the stored string at position 64; ASCII-encode the
salt (which raises `UnicodeEncodeError` on non-ASCII salt characters);
recompute the derivation and compare. -/
def verify_password (provided stored : List Char) : Except PyErr Bool :=
  if 1024 < provided.length then .error .valueError
  else
    match asciiEncode (stored.take 64) with
    | none => .error .unicodeEncodeError
    | some saltBytes =>
      .ok (decide (bytesToHexChars
        (pbkdf2HmacSha512Model (pyEncodeUtf8 provided) saltBytes 100000) = stored.drop 64))

/-! ### Structure lemmas for the password hasher -/

theorem hexDigit_ascii (n : Nat) : (hexDigit n).toNat < 128 := by
  unfold hexDigit
  split <;> decide

theorem bytesToHexChars_length (bs : List Nat) :
    (bytesToHexChars bs).length = 2 * bs.length := by
  induction bs with
  | nil => rfl
  | cons b bs ih =>
    simp only [bytesToHexChars, List.foldr_cons, List.length_cons] at *
    omega

theorem bytesToHexChars_ascii (bs : List Nat) :
    ∀ c ∈ bytesToHexChars bs, c.toNat < 128 := by
  induction bs with
  | nil => intro c hc; cases hc
  | cons b bs ih =>
    intro c hc
    simp only [bytesToHexChars, List.foldr_cons, List.mem_cons] at hc
    rcases hc with h | h | h
    · exact h ▸ hexDigit_ascii _
    · exact h ▸ hexDigit_ascii _
    · exact ih c h

theorem sha256Model_length (input : List Nat) : (sha256Model input).length = 32 := by
  simp [sha256Model]

theorem sha256HexDigest_length (input : List Nat) :
    (sha256HexDigest input).length = 64 := by
  rw [sha256HexDigest, bytesToHexChars_length, sha256Model_length]

theorem pbkdf2Model_length (password salt : List Nat) (iterations : Nat) :
    (pbkdf2HmacSha512Model password salt iterations).length = 64 := by
  simp [pbkdf2HmacSha512Model]

theorem charUtf8_ascii {c : Char} (h : c.toNat < 128) : charUtf8 c = [c.toNat] := by
  unfold charUtf8
  rw [if_pos h]

theorem pyEncodeUtf8_eq_map {s : List Char} (h : ∀ c ∈ s, c.toNat < 128) :
    pyEncodeUtf8 s = s.map Char.toNat := by
  induction s with
  | nil => rfl
  | cons c cs ih =>
    simp only [pyEncodeUtf8, List.foldr_cons, List.map_cons]
    rw [charUtf8_ascii (h c (List.mem_cons_self c cs))]
    simpa [pyEncodeUtf8] using ih (fun x hx => h x (List.mem_cons_of_mem c hx))

theorem asciiEncode_of_ascii {s : List Char} (h : ∀ c ∈ s, c.toNat < 128) :
    asciiEncode s = some (s.map Char.toNat) := by
  unfold asciiEncode
  rw [if_pos]
  rw [List.all_eq_true]
  intro c hc
  exact decide_eq_true (h c hc)

/-- C3: verifying a password of length at most 1024 against its own hash
succeeds, for every possible value of the random salt input. -/
theorem verify_password_of_hash (word : List Char) (rnd : List Nat)
    (h : word.length ≤ 1024) :
    verify_password word (get_password_hash word rnd) = .ok true := by
  unfold verify_password get_password_hash
  rw [if_neg (by omega)]
  have hsalt : (sha256HexDigest rnd).length = 64 := sha256HexDigest_length rnd
  have hascii : ∀ c ∈ sha256HexDigest rnd, c.toNat < 128 :=
    bytesToHexChars_ascii (sha256Model rnd)
  rw [List.take_left' hsalt, asciiEncode_of_ascii hascii, List.drop_left' hsalt]
  rw [← pyEncodeUtf8_eq_map hascii]
  simp

def rnd60 : List Nat := List.range 60

/-- Witness for C3 at a concrete password and concrete salt randomness. -/
theorem verify_password_of_hash_witness :
    verify_password ['p', 'w'] (get_password_hash ['p', 'w'] rnd60) = .ok true :=
  verify_password_of_hash ['p', 'w'] rnd60 (by decide)

/-- C4: the hash of any password over 60 random bytes is 192 characters —
the 64-character SHA-256 hex digest of the random bytes followed by the
128-character hex encoding of the 64-byte PBKDF2-HMAC-SHA512 derivation
with 100000 iterations over the UTF-8 password bytes and the salt's
bytes. -/
theorem get_password_hash_structure (word : List Char) (rnd : List Nat)
    (_hr : rnd.length = 60) :
    (get_password_hash word rnd).length = 192 ∧
    (get_password_hash word rnd).take 64 = sha256HexDigest rnd ∧
    (get_password_hash word rnd).drop 64 = bytesToHexChars
      (pbkdf2HmacSha512Model (pyEncodeUtf8 word)
        (pyEncodeUtf8 (sha256HexDigest rnd)) 100000) ∧
    (pbkdf2HmacSha512Model (pyEncodeUtf8 word)
      (pyEncodeUtf8 (sha256HexDigest rnd)) 100000).length = 64 := by
  have hsalt : (sha256HexDigest rnd).length = 64 := sha256HexDigest_length rnd
  have hpb : (pbkdf2HmacSha512Model (pyEncodeUtf8 word)
      (pyEncodeUtf8 (sha256HexDigest rnd)) 100000).length = 64 :=
    pbkdf2Model_length _ _ _
  refine ⟨?_, ?_, ?_, hpb⟩
  · unfold get_password_hash
    rw [List.length_append, hsalt, bytesToHexChars_length, hpb]
  · unfold get_password_hash
    rw [List.take_left' hsalt]
  · unfold get_password_hash
    rw [List.drop_left' hsalt]

/-- Witness for C4 at a concrete password and concrete 60-byte randomness. -/
theorem get_password_hash_structure_witness :
    (get_password_hash ['p', 'w'] rnd60).length = 192 ∧
    (get_password_hash ['p', 'w'] rnd60).take 64 = sha256HexDigest rnd60 ∧
    (get_password_hash ['p', 'w'] rnd60).drop 64 = bytesToHexChars
      (pbkdf2HmacSha512Model (pyEncodeUtf8 ['p', 'w'])
        (pyEncodeUtf8 (sha256HexDigest rnd60)) 100000) ∧
    (pbkdf2HmacSha512Model (pyEncodeUtf8 ['p', 'w'])
      (pyEncodeUtf8 (sha256HexDigest rnd60)) 100000).length = 64 :=
  get_password_hash_structure ['p', 'w'] rnd60 (by decide)

/-- C5 counterexample: a one-character provided password (length at most
1024) against a stored string whose first 64 characters are non-ASCII
makes `verify_password` raise (a `UnicodeEncodeError` from
`salt.encode('ascii')`), refuting the claim that it never raises for
passwords of length at most 1024. -/
theorem verify_password_nonascii_raises :
    List.length ['x'] ≤ 1024 ∧
    verify_password ['x'] (List.replicate 64 'Ā') = .error .unicodeEncodeError := by
  constructor
  · decide
  · rfl

/-- C5 (amended): `verify_password` raises the oversized-password
`ValueError` exactly when the provided password is longer than 1024
characters; for a password of length at most 1024 and a stored string
whose first 64 characters are ASCII (true of every canonical stored
string, which is hexadecimal), it does not raise and returns the result
of recomputing the derivation over the stored salt and comparing with
the remainder of the stored string. -/
theorem verify_password_spec (p s : List Char) :
    (verify_password p s = .error .valueError ↔ 1024 < p.length) ∧
    (p.length ≤ 1024 → (∀ c ∈ s.take 64, c.toNat < 128) →
      verify_password p s = .ok (decide (bytesToHexChars
        (pbkdf2HmacSha512Model (pyEncodeUtf8 p)
          ((s.take 64).map Char.toNat) 100000) = s.drop 64))) := by
  constructor
  · constructor
    · intro h
      by_contra hlen
      unfold verify_password at h
      rw [if_neg hlen] at h
      rcases hm : asciiEncode (s.take 64) with _ | saltBytes <;> rw [hm] at h <;> cases h
    · intro h
      unfold verify_password
      rw [if_pos h]
  · intro hlen hascii
    unfold verify_password
    rw [if_neg (by omega), asciiEncode_of_ascii hascii]

/-- Witness for C5's amended theorem at a concrete password and an ASCII
stored string. -/
theorem verify_password_spec_witness :
    verify_password ['x'] (List.replicate 64 'a') = .ok (decide (bytesToHexChars
      (pbkdf2HmacSha512Model (pyEncodeUtf8 ['x'])
        (((List.replicate 64 'a').take 64).map Char.toNat) 100000) =
      (List.replicate 64 'a').drop 64)) :=
  (verify_password_spec ['x'] (List.replicate 64 'a')).2 (by decide) (by decide)

/-! ## KeyStore (src/encryption.py lines 11-39)

`_generate_key` writes `Fernet.generate_key()` to the key file;
`_load_key` reads the key file, generating it first when absent.
`Fernet.generate_key` is a primitive of the external `cryptography`
library, documented to return `base64.urlsafe_b64encode(os.urandom(32))`
— the URL-safe base64 encoding (44 bytes, including one `=` padding
byte) of 32 fresh random bytes.  It is modelled below with the random
bytes passed in explicitly.  The file system is modelled as the optional
content of the key file at the fixed path. -/

/-- URL-safe base64 alphabet value for a 6-bit group. -/
def b64Byte (n : Nat) : Nat :=
  if n < 26 then 65 + n
  else if n < 52 then 97 + (n - 26)
  else if n < 62 then 48 + (n - 52)
  else if n = 62 then 45
  else 95

/-- URL-safe base64 encoding with `=` padding (byte value 61), as
produced by `base64.urlsafe_b64encode`. -/
def urlsafeB64Encode : List Nat → List Nat
  | [] => []
  | [a] => [b64Byte (a / 4 % 64), b64Byte (a % 4 * 16), 61, 61]
  | [a, b] => [b64Byte (a / 4 % 64), b64Byte (a % 4 * 16 + b / 16 % 16), b64Byte (b % 16 * 4), 61]
  | a :: b :: c :: rest =>
    b64Byte (a / 4 % 64) :: b64Byte (a % 4 * 16 + b / 16 % 16) ::
      b64Byte (b % 16 * 4 + c / 64 % 4) :: b64Byte (c % 64) :: urlsafeB64Encode rest

/-- Model of `Fernet.generate_key()`: URL-safe base64 encoding of 32
random bytes, here passed in as `rnd`. -/
def generate_key (rnd : List Nat) : List Nat :=
  urlsafeB64Encode rnd

/-- Embedding of `encryption._load_key` combined with
`encryption._generate_key` (src/encryption.py lines 11-39), acting on
the optional content of the key file: read the file if it exists;
otherwise generate a key, write it, and read it back.  Returns the key
bytes, the new file content, and whether a new key was generated. -/
def load_key (fs : Option (List Nat)) (rnd : List Nat) :
    List Nat × Option (List Nat) × Bool :=
  match fs with
  | some content => (content, some content, false)
  | none =>
    let key := generate_key rnd
    (key, some key, true)

theorem urlsafeB64Encode_length : ∀ l : List Nat,
    (urlsafeB64Encode l).length = 4 * ((l.length + 2) / 3)
  | [] => rfl
  | [_] => by simp [urlsafeB64Encode]
  | [_, _] => by simp [urlsafeB64Encode]
  | _ :: _ :: _ :: rest => by
    have ih := urlsafeB64Encode_length rest
    simp only [urlsafeB64Encode, List.length_cons] at *
    omega

/-- C6 counterexample: on an empty directory and concrete key
randomness, `_load_key` creates a key file of 44 bytes (the base64
encoding of the 32 random key bytes), not of exactly 32 bytes as the
claim states. -/
theorem load_key_creates_44_byte_file :
    (load_key none (List.replicate 32 0)).2.1 = some (generate_key (List.replicate 32 0)) ∧
    (generate_key (List.replicate 32 0)).length = 44 ∧
    ¬ (generate_key (List.replicate 32 0)).length = 32 := by
  refine ⟨rfl, ?_, ?_⟩ <;> decide

/-- C6 (amended): `_load_key` at an absent key file creates a key file
of exactly 44 bytes — the URL-safe base64 encoding of 32 random bytes —
and returns its contents; every subsequent call with the same path
returns bytes identical to the first call's result without generating a
new key. -/
theorem load_key_spec (rnd rnd2 : List Nat) (h : rnd.length = 32) :
    (load_key none rnd).2.1 = some (load_key none rnd).1 ∧
    (load_key none rnd).1.length = 44 ∧
    (load_key none rnd).2.2 = true ∧
    load_key (load_key none rnd).2.1 rnd2 =
      ((load_key none rnd).1, (load_key none rnd).2.1, false) := by
  refine ⟨rfl, ?_, rfl, rfl⟩
  show (generate_key rnd).length = 44
  rw [generate_key, urlsafeB64Encode_length, h]

/-- Witness for C6's amended theorem at concrete 32-byte randomness. -/
theorem load_key_spec_witness :
    (load_key none (List.replicate 32 7)).2.1 = some (load_key none (List.replicate 32 7)).1 ∧
    (load_key none (List.replicate 32 7)).1.length = 44 ∧
    (load_key none (List.replicate 32 7)).2.2 = true ∧
    load_key (load_key none (List.replicate 32 7)).2.1 (List.replicate 32 9) =
      ((load_key none (List.replicate 32 7)).1, (load_key none (List.replicate 32 7)).2.1, false) :=
  load_key_spec (List.replicate 32 7) (List.replicate 32 9) (by decide)

/-! ## Password registry (src/functions.py lines 89-106)

`_store_password` decrypts the registry file, parses it into lines,
appends the new `pageIdentifier<TAB>hash` record, rewrites the file and
re-encrypts it.  The embedding below captures the transformation of the
decrypted registry plaintext.  Python's `str.rstrip()` strips trailing
Unicode whitespace; the registry's canonical content is ASCII, and the
model implements the ASCII whitespace set. -/

/-- ASCII whitespace, as stripped by `str.rstrip()`. -/
def pyIsSpace (c : Char) : Bool :=
  decide (c.toNat = 32 ∨ c.toNat = 9 ∨ c.toNat = 10 ∨
    c.toNat = 13 ∨ c.toNat = 11 ∨ c.toNat = 12)

/-- Python `str.rstrip()`: remove trailing whitespace characters. -/
def pyRstrip (l : List Char) : List Char :=
  (l.reverse.dropWhile pyIsSpace).reverse

/-- Python `str.split('\n')`: split on every newline; the result always
has at least one (possibly empty) part. -/
def pySplitNl : List Char → List (List Char)
  | [] => [[]]
  | c :: rest =>
    if c = '\n' then [] :: pySplitNl rest
    else
      match pySplitNl rest with
      | [] => [[c]]
      | p :: ps => (c :: p) :: ps

/-- Registry parsing as performed by `_store_password`
(src/functions.py lines 95-100): `rstrip` the whole decrypted text,
split on newlines, `rstrip` each line, and treat the single empty line
as the empty registry. -/
def parseRegistry (s : List Char) : List (List Char) :=
  let data := (pySplitNl (pyRstrip s)).map pyRstrip
  if data = [[]] then [] else data

/-- Registry serialization as performed by `_store_password`
(src/functions.py lines 103-104): write every line followed by a
newline. -/
def serializeLines (ls : List (List Char)) : List Char :=
  ls.foldr (fun l acc => l ++ '\n' :: acc) []

/-- Embedding of `functions._store_password` (src/functions.py lines
89-106) acting on the decrypted registry plaintext: parse the prior
content, append the new `fileName<TAB>hash` line, and re-serialize.
`rnd` is the salt randomness consumed by `get_password_hash`. -/
def store_password (passwordData fileName password : List Char) (rnd : List Nat) :
    List Char :=
  let data := (pySplitNl (pyRstrip passwordData)).map pyRstrip
  let data := if data = [[]] then [] else data
  let line := fileName ++ '\t' :: get_password_hash password rnd
  serializeLines (data ++ [line])

/-! ### Round-trip of registry parsing and serialization -/

theorem store_password_eq_append (passwordData fileName password : List Char)
    (rnd : List Nat) :
    store_password passwordData fileName password rnd =
      serializeLines (parseRegistry passwordData ++
        [fileName ++ '\t' :: get_password_hash password rnd]) := rfl

theorem pyRstrip_nil : pyRstrip [] = [] := rfl

theorem dropWhile_reverse_of_canonical {l : List Char} (h : pyRstrip l = l) :
    l.reverse.dropWhile pyIsSpace = l.reverse := by
  have h2 := congrArg List.reverse h
  rwa [pyRstrip, List.reverse_reverse] at h2

/-- Canonical line condition: non-empty, no interior newline, no
trailing whitespace. -/
def goodLine (l : List Char) : Prop :=
  pyRstrip l = l ∧ l ≠ [] ∧ '\n' ∉ l

instance (l : List Char) : Decidable (goodLine l) := by
  unfold goodLine
  infer_instance

/-- Newline-joined form of a line list (the result of stripping the
trailing newline from the serialized form). -/
def joinNl : List (List Char) → List Char
  | [] => []
  | [l] => l
  | l :: rest => l ++ '\n' :: joinNl rest

theorem joinNl_ne_nil {lines : List (List Char)} (hne : lines ≠ [])
    (h : ∀ l ∈ lines, l ≠ []) : joinNl lines ≠ [] := by
  match lines with
  | [] => exact absurd rfl hne
  | [l] =>
    simpa [joinNl] using h l (List.mem_cons_self l [])
  | l :: r :: rs =>
    have hl : l ≠ [] := h l (List.mem_cons_self l (r :: rs))
    simp only [joinNl]
    intro hcontra
    rcases List.append_eq_nil.mp hcontra with ⟨h1, _⟩
    exact hl h1

theorem map_pyRstrip_canonical : ∀ ls : List (List Char),
    (∀ x ∈ ls, pyRstrip x = x) → ls.map pyRstrip = ls
  | [], _ => rfl
  | l :: rest, h => by
    rw [List.map_cons, h l (List.mem_cons_self l rest),
      map_pyRstrip_canonical rest (fun x hx => h x (List.mem_cons_of_mem l hx))]

theorem pyRstrip_serializeLines {lines : List (List Char)}
    (h : ∀ l ∈ lines, pyRstrip l = l ∧ l ≠ []) :
    pyRstrip (serializeLines lines) = joinNl lines := by
  induction lines with
  | nil => rfl
  | cons l rest ih =>
    have hl := h l (List.mem_cons_self l rest)
    have hrest : ∀ x ∈ rest, pyRstrip x = x ∧ x ≠ [] :=
      fun x hx => h x (List.mem_cons_of_mem l hx)
    cases rest with
    | nil =>
      show pyRstrip (l ++ ['\n']) = joinNl [l]
      rw [pyRstrip, List.reverse_append]
      have hrw : (['\n'] : List Char).reverse ++ l.reverse = '\n' :: l.reverse := rfl
      rw [hrw, List.dropWhile_cons_of_pos (by decide),
        dropWhile_reverse_of_canonical hl.1, List.reverse_reverse]
      rfl
    | cons r rs =>
      have hih : pyRstrip (serializeLines (r :: rs)) = joinNl (r :: rs) := ih hrest
      have hjoin : joinNl (r :: rs) ≠ [] :=
        joinNl_ne_nil (by simp) (fun x hx => (hrest x hx).2)
      have hdrop : (serializeLines (r :: rs)).reverse.dropWhile pyIsSpace ≠ [] := by
        intro hcontra
        apply hjoin
        rw [← hih, pyRstrip, hcontra, List.reverse_nil]
      show pyRstrip (l ++ '\n' :: serializeLines (r :: rs)) = joinNl (l :: r :: rs)
      rw [pyRstrip, List.reverse_append, List.reverse_cons, List.append_assoc,
        List.dropWhile_append]
      rw [if_neg (by simpa [List.isEmpty_iff] using hdrop)]
      rw [List.reverse_append]
      have hih2 : ((serializeLines (r :: rs)).reverse.dropWhile pyIsSpace).reverse
          = joinNl (r :: rs) := hih
      rw [hih2]
      have hsingle : ((['\n'] : List Char) ++ l.reverse).reverse = l ++ ['\n'] := by
        rw [List.reverse_append, List.reverse_reverse]
        rfl
      rw [hsingle]
      show (l ++ ['\n']) ++ joinNl (r :: rs) = l ++ '\n' :: joinNl (r :: rs)
      rw [List.append_assoc]
      rfl

theorem pySplitNl_no_newline {l : List Char} (h : '\n' ∉ l) :
    pySplitNl l = [l] := by
  induction l with
  | nil => rfl
  | cons c cs ih =>
    have hc : ¬ c = '\n' := fun hcontra => h (hcontra ▸ List.mem_cons_self c cs)
    have hcs : '\n' ∉ cs := fun hcontra => h (List.mem_cons_of_mem c hcontra)
    simp only [pySplitNl, if_neg hc, ih hcs]

theorem pySplitNl_append_newline {l : List Char} (t : List Char) (h : '\n' ∉ l) :
    pySplitNl (l ++ '\n' :: t) = l :: pySplitNl t := by
  induction l with
  | nil =>
    show pySplitNl ('\n' :: t) = [] :: pySplitNl t
    simp [pySplitNl]
  | cons c cs ih =>
    have hc : ¬ c = '\n' := fun hcontra => h (hcontra ▸ List.mem_cons_self c cs)
    have hcs : '\n' ∉ cs := fun hcontra => h (List.mem_cons_of_mem c hcontra)
    show pySplitNl (c :: (cs ++ '\n' :: t)) = (c :: cs) :: pySplitNl t
    simp only [pySplitNl, if_neg hc, ih hcs]

theorem pySplitNl_joinNl {lines : List (List Char)} (hne : lines ≠ [])
    (h : ∀ l ∈ lines, '\n' ∉ l) :
    pySplitNl (joinNl lines) = lines := by
  induction lines with
  | nil => exact absurd rfl hne
  | cons l rest ih =>
    match rest with
    | [] =>
      show pySplitNl (joinNl [l]) = [l]
      exact pySplitNl_no_newline (h l (List.mem_cons_self l []))
    | r :: rs =>
      show pySplitNl (l ++ '\n' :: joinNl (r :: rs)) = l :: (r :: rs)
      rw [pySplitNl_append_newline _ (h l (List.mem_cons_self l (r :: rs)))]
      rw [ih (by simp) (fun x hx => h x (List.mem_cons_of_mem l hx))]

theorem parseRegistry_serializeLines {lines : List (List Char)}
    (h : ∀ l ∈ lines, goodLine l) :
    parseRegistry (serializeLines lines) = lines := by
  match lines with
  | [] => rfl
  | l :: rest =>
    unfold parseRegistry
    rw [pyRstrip_serializeLines (fun x hx => ⟨(h x hx).1, (h x hx).2.1⟩)]
    rw [pySplitNl_joinNl (by simp) (fun x hx => (h x hx).2.2)]
    rw [map_pyRstrip_canonical (l :: rest) (fun x hx => (h x hx).1)]
    rw [if_neg]
    intro hcontra
    exact (h l (List.mem_cons_self l rest)).2.1 (List.cons.inj hcontra).1

def pageA : List Char := ['a', '.', 't', 'x', 't']

def regLineA : List Char := pageA ++ '\t' :: ['h', '1']

def priorRegistry : List Char := serializeLines [regLineA]

set_option maxRecDepth 16384 in
/-- C7 counterexample: on a registry already containing a record for
page `a.txt`, `_store_password` for the same page identifier does not
fail — it appends a second record for `a.txt`, so the resulting registry
holds both records. -/
theorem store_password_duplicate_appends :
    parseRegistry (store_password priorRegistry pageA ['p', 'w'] rnd60) =
      [regLineA, pageA ++ '\t' :: get_password_hash ['p', 'w'] rnd60] := by
  rw [store_password_eq_append]
  have h1 : parseRegistry priorRegistry = [regLineA] :=
    parseRegistry_serializeLines (by decide)
  rw [h1]
  exact parseRegistry_serializeLines (by decide)

/-- C7 (amended): `_store_password` performs no duplicate check: for
every prior registry content — including one in which the page
identifier is already present — it appends the new record
unconditionally and never fails with a ValidationError (its embedding
is a total function). -/
theorem store_password_no_duplicate_check
    (passwordData fileName password : List Char) (rnd : List Nat) :
    store_password passwordData fileName password rnd =
      serializeLines (parseRegistry passwordData ++
        [fileName ++ '\t' :: get_password_hash password rnd]) :=
  store_password_eq_append passwordData fileName password rnd

/-- C10: a successful append on a canonical registry (non-empty lines
with no interior newline and no trailing whitespace, as this writer
always produces) keeps every previously stored record unmodified and in
order, and places the single new record as the last line of the
re-serialized registry. -/
theorem store_password_frame (lines : List (List Char))
    (fileName password : List Char) (rnd : List Nat)
    (h : ∀ l ∈ lines, goodLine l) :
    store_password (serializeLines lines) fileName password rnd =
      serializeLines (lines ++ [fileName ++ '\t' :: get_password_hash password rnd]) := by
  rw [store_password_eq_append, parseRegistry_serializeLines h]

def linesW : List (List Char) := [['b', '\t', 'h', '2']]

/-- Witness for C10 at a concrete one-record registry. -/
theorem store_password_frame_witness :
    store_password (serializeLines linesW) ['c'] ['q'] rnd60 =
      serializeLines (linesW ++ [['c'] ++ '\t' :: get_password_hash ['q'] rnd60]) :=
  store_password_frame linesW ['c'] ['q'] rnd60 (by decide)

/-! ## UploadRetrier (src/gdrive.py lines 95-114)

The retry loop of `_upload_file`: up to `max_tries = 10` attempts; on an
`HttpError` with a retryable status (403, 500, 503, 502, 504) the try
counter is incremented and the loop sleeps
`randint(0, 2**try_counter - 1) * slot_time` seconds with
`slot_time = 0.1`; on a non-retryable status with a JSON error payload
the reason is printed and the function returns immediately; on any other
`HttpError` the exception propagates.  The wrapped remote call is
modelled as a function from the attempt's try-counter value to an
outcome, and the `randint` draws as a function from the try-counter
value to the drawn number.  The loop additionally returns the number of
attempts performed and the trace of sleeps, each sleep recorded as the
pair of the `randint` upper bound and the slept duration in seconds. -/

/-- Outcome of one execution of the wrapped remote operation. -/
inductive AttemptOutcome where
  | success
  | httpError (status : Nat) (jsonPayload : Bool)
deriving DecidableEq, Repr

/-- Result of the `_upload_file` retry loop. -/
inductive UploadResult where
  | uploaded
  | permanentFailure
  | unableToUpload
  | raised (status : Nat)
deriving DecidableEq, Repr

/-- The fixed set of retryable HTTP status codes
(src/gdrive.py line 104). -/
def retryableStatus (s : Nat) : Bool :=
  s == 403 || s == 500 || s == 503 || s == 502 || s == 504

/-- The backoff slot time in seconds (src/gdrive.py line 97). -/
def slotTime : ℚ := 1 / 10

/-- Embedding of the retry loop of `gdrive._upload_file` (src/gdrive.py
lines 95-114).  `tc` is `try_counter`; `fuel` is `max_tries - tc`.
Returns the result, the number of attempts performed, and the sleep
trace (randint upper bound, slept seconds). -/
def uploadLoop (op : Nat → AttemptOutcome) (rng : Nat → Nat) :
    Nat → Nat → UploadResult × Nat × List (Nat × ℚ)
  | _, 0 => (.unableToUpload, 0, [])
  | tc, fuel + 1 =>
    match op tc with
    | .success => (.uploaded, 1, [])
    | .httpError s json =>
      if retryableStatus s then
        let r := uploadLoop op rng (tc + 1) fuel
        (r.1, r.2.1 + 1, (2 ^ (tc + 1) - 1, (rng (tc + 1) : ℚ) * slotTime) :: r.2.2)
      else if json then (.permanentFailure, 1, [])
      else (.raised s, 1, [])

/-- The whole retry wrapper: `try_counter` starts at 0 with
`max_tries = 10`. -/
def uploadFile (op : Nat → AttemptOutcome) (rng : Nat → Nat) :
    UploadResult × Nat × List (Nat × ℚ) :=
  uploadLoop op rng 0 10

/-- Expected sleep trace of `fuel` consecutive retryable failures
starting at try counter `tc`: after failed attempt number `n` the loop
sleeps `randint(0, 2^n - 1) * 0.1` seconds. -/
def backoffTrace (rng : Nat → Nat) : Nat → Nat → List (Nat × ℚ)
  | _, 0 => []
  | tc, fuel + 1 =>
    (2 ^ (tc + 1) - 1, (rng (tc + 1) : ℚ) * slotTime) :: backoffTrace rng (tc + 1) fuel

theorem uploadLoop_step (op : Nat → AttemptOutcome) (rng : Nat → Nat)
    (tc fuel : Nat) :
    uploadLoop op rng tc (fuel + 1) =
      match op tc with
      | .success => (.uploaded, 1, [])
      | .httpError s json =>
        if retryableStatus s then
          let r := uploadLoop op rng (tc + 1) fuel
          (r.1, r.2.1 + 1, (2 ^ (tc + 1) - 1, (rng (tc + 1) : ℚ) * slotTime) :: r.2.2)
        else if json then (.permanentFailure, 1, [])
        else (.raised s, 1, []) := rfl

theorem uploadLoop_all_retryable (op : Nat → AttemptOutcome) (rng : Nat → Nat)
    (st : Nat → Nat) (jsf : Nat → Bool)
    (h : ∀ k, op k = .httpError (st k) (jsf k) ∧ retryableStatus (st k) = true) :
    ∀ fuel tc, uploadLoop op rng tc fuel =
      (.unableToUpload, fuel, backoffTrace rng tc fuel) := by
  intro fuel
  induction fuel with
  | zero => intro tc; rfl
  | succ n ih =>
    intro tc
    rw [uploadLoop_step, (h tc).1]
    simp only [(h tc).2, if_true, ih (tc + 1)]
    rfl

/-- C8: wrapped operations that fail with retryable errors on the first
three attempts and succeed on the fourth make the retry wrapper succeed
on the 4th attempt, with sleep bounds `randint(0, 2^n - 1) * 0.1`
seconds after failed attempt `n`; operations that always fail with
retryable errors make it perform exactly 10 attempts and return failure
without throwing. -/
theorem upload_retry_behaviour (op : Nat → AttemptOutcome) (rng : Nat → Nat)
    (st : Nat → Nat) (jsf : Nat → Bool) :
    ((∀ k, k < 3 → op k = .httpError (st k) (jsf k) ∧ retryableStatus (st k) = true) →
      op 3 = .success →
      uploadFile op rng = (.uploaded, 4, backoffTrace rng 0 3)) ∧
    ((∀ k, op k = .httpError (st k) (jsf k) ∧ retryableStatus (st k) = true) →
      uploadFile op rng = (.unableToUpload, 10, backoffTrace rng 0 10)) := by
  constructor
  · intro h1 h2
    unfold uploadFile
    rw [show (10 : Nat) = 9 + 1 from rfl, uploadLoop_step, (h1 0 (by omega)).1]
    simp only [(h1 0 (by omega)).2, if_true]
    rw [show (9 : Nat) = 8 + 1 from rfl, uploadLoop_step, (h1 1 (by omega)).1]
    simp only [(h1 1 (by omega)).2, if_true]
    rw [show (8 : Nat) = 7 + 1 from rfl, uploadLoop_step, (h1 2 (by omega)).1]
    simp only [(h1 2 (by omega)).2, if_true]
    rw [show (7 : Nat) = 6 + 1 from rfl, uploadLoop_step, h2]
    simp [backoffTrace]
  · intro h
    unfold uploadFile
    rw [uploadLoop_all_retryable op rng st jsf h 10 0]

/-- C9: a wrapped operation that fails on its first attempt with a
non-retryable status carrying a JSON error payload (the code's
classified permanent error) makes the retry wrapper return a failure
after exactly one attempt, with no retry and no sleep. -/
theorem upload_permanent_error (op : Nat → AttemptOutcome) (rng : Nat → Nat)
    (s : Nat) (hs : retryableStatus s = false)
    (hjson : op 0 = .httpError s true) :
    uploadFile op rng = (.permanentFailure, 1, []) := by
  unfold uploadFile
  rw [show (10 : Nat) = 9 + 1 from rfl, uploadLoop_step, hjson]
  simp [hs]

def opA : Nat → AttemptOutcome := fun k => if k < 3 then .httpError 503 false else .success

def opB : Nat → AttemptOutcome := fun _ => .httpError 500 true

def opC : Nat → AttemptOutcome := fun _ => .httpError 404 true

def rngW : Nat → Nat := fun n => n

/-- Witness for C8: both scenarios at concrete operations and a concrete
random-draw sequence. -/
theorem upload_retry_behaviour_witness :
    uploadFile opA rngW = (.uploaded, 4, backoffTrace rngW 0 3) ∧
    uploadFile opB rngW = (.unableToUpload, 10, backoffTrace rngW 0 10) :=
  ⟨(upload_retry_behaviour opA rngW (fun _ => 503) (fun _ => false)).1
      (by decide) (by decide),
    (upload_retry_behaviour opB rngW (fun _ => 500) (fun _ => true)).2
      (fun _ => ⟨rfl, rfl⟩)⟩

/-- Witness for C9 at a concrete permanently failing operation. -/
theorem upload_permanent_error_witness :
    uploadFile opC rngW = (.permanentFailure, 1, []) :=
  upload_permanent_error opC rngW 404 (by decide) rfl

end GDNotes
